import Mathlib

/-!
Verification of the Holder Accounting & Distribution Engine.

Shallow embedding of the holder scanner, points and pot calculator,
airdrop distributor and flywheel controller (src/tasks/holderScanner.js
and the flywheel task).  Pubkeys are modelled as strings, JS numbers as
rationals (exact arithmetic), BN big integers as naturals.
-/

/-- A decoded token account: owner pubkey and u64 amount
(holderScanner.js, parsedAccounts map step). -/
structure ParsedAccount where
  owner : String
  amount : Nat
deriving DecidableEq, Repr

/-- Dust threshold from holderScanner.js: new BN(1000000). -/
def dustThreshold : Nat := 1000000

/-- An account survives the scanner's filter when its amount is strictly
above the dust threshold and its owner is neither the protocol liquidity
wallet nor the bonding-curve escrow (holderScanner.js lines 86-95). -/
def qualifies (pl bc : String) (a : ParsedAccount) : Bool :=
  decide (dustThreshold < a.amount) && decide (a.owner ≠ pl) && decide (a.owner ≠ bc)

/-- The scanner's candidate-selection loop (holderScanner.js lines 86-95):
walk the sorted accounts, stop once 100 candidates are collected, skip
dust balances, skip the liquidity wallet and the bonding-curve escrow,
and push every other account's owner. -/
def holdersLoop (pl bc : String) : List ParsedAccount → List String → List String
  | [], acc => acc
  | a :: rest, acc =>
    if 100 ≤ acc.length then acc
    else if a.amount ≤ dustThreshold then holdersLoop pl bc rest acc
    else if a.owner ≠ pl ∧ a.owner ≠ bc then holdersLoop pl bc rest (acc ++ [a.owner])
    else holdersLoop pl bc rest acc

/-- holdersToInsert as built by one scan of a mint. -/
def holdersToInsert (pl bc : String) (parsed : List ParsedAccount) : List String :=
  holdersLoop pl bc parsed []

/-- The persist loop (holderScanner.js lines 104-113): rank starts at 1
and increments for every candidate row inserted. -/
def insertRowsAux : Nat → List String → List (String × Nat)
  | _, [] => []
  | r, h :: t => (h, r) :: insertRowsAux (r + 1) t

/-- Modelled from the spec: the storage collaborator's token_holders table
(spec section 6) declares columns (mint, holderAddress, rank, lastUpdated)
and no uniqueness constraint, so the INSERT OR IGNORE in the persist loop
inserts every row.  Rows for one mint after a persist. -/
def insertRows (hs : List String) : List (String × Nat) :=
  insertRowsAux 1 hs

lemma holdersLoop_eq (pl bc : String) (l : List ParsedAccount) :
    ∀ acc : List String,
      holdersLoop pl bc l acc
        = acc ++ ((l.filter (qualifies pl bc)).map ParsedAccount.owner).take (100 - acc.length) := by
  induction l with
  | nil => intro acc; simp [holdersLoop]
  | cons a rest ih =>
    intro acc
    rw [holdersLoop]
    by_cases hlen : 100 ≤ acc.length
    · have : 100 - acc.length = 0 := by omega
      simp [hlen, this]
    · have hlt : acc.length < 100 := by omega
      simp only [if_neg hlen]
      by_cases hdust : a.amount ≤ dustThreshold
      · have hq : qualifies pl bc a = false := by
          unfold qualifies
          rw [decide_eq_false (by omega : ¬dustThreshold < a.amount)]
          simp
        simp [hdust, List.filter_cons, hq, ih]
      · by_cases hown : a.owner ≠ pl ∧ a.owner ≠ bc
        · have hq : qualifies pl bc a = true := by
            unfold qualifies
            rw [decide_eq_true (by omega : dustThreshold < a.amount),
              decide_eq_true hown.1, decide_eq_true hown.2]
            simp
          simp only [if_neg hdust, if_pos hown, ih, List.filter_cons, hq, if_pos,
            List.map_cons]
          have harith : 100 - acc.length = (100 - (acc.length + 1)) + 1 := by omega
          rw [harith]
          simp [List.take_succ_cons, List.append_assoc]
        · have hq : qualifies pl bc a = false := by
            unfold qualifies
            rcases not_and_or.mp hown with h | h
            · rw [decide_eq_false h]
              simp
            · rw [decide_eq_false h]
              simp
          simp [hdust, hown, List.filter_cons, hq, ih]

lemma holdersToInsert_eq (pl bc : String) (parsed : List ParsedAccount) :
    holdersToInsert pl bc parsed
      = ((parsed.filter (qualifies pl bc)).map ParsedAccount.owner).take 100 := by
  simp [holdersToInsert, holdersLoop_eq]

lemma holdersToInsert_length_le (pl bc : String) (parsed : List ParsedAccount) :
    (holdersToInsert pl bc parsed).length ≤ 100 := by
  rw [holdersToInsert_eq]
  simp

lemma insertRowsAux_map_snd (r : Nat) (hs : List String) :
    (insertRowsAux r hs).map Prod.snd = List.range' r hs.length := by
  induction hs generalizing r with
  | nil => simp [insertRowsAux]
  | cons h t ih => simp [insertRowsAux, List.range', ih]

lemma insertRowsAux_map_fst (r : Nat) (hs : List String) :
    (insertRowsAux r hs).map Prod.fst = hs := by
  induction hs generalizing r with
  | nil => simp [insertRowsAux]
  | cons h t ih => simp [insertRowsAux, ih]

/-- Claim C9: after a successful persist the stored rows for a mint carry
ranks 1..N contiguously (no gaps, no duplicates: the list of ranks is
exactly List.range' 1 N), where N is the number of surviving candidates
kept, at most 100, and the row owners are exactly the candidates in
sorted order. -/
theorem snapshot_ranks_contiguous (pl bc : String) (parsed : List ParsedAccount) :
    (insertRows (holdersToInsert pl bc parsed)).map Prod.snd
        = List.range' 1 (holdersToInsert pl bc parsed).length
    ∧ (insertRows (holdersToInsert pl bc parsed)).map Prod.fst
        = holdersToInsert pl bc parsed
    ∧ (holdersToInsert pl bc parsed).length ≤ 100 :=
  ⟨insertRowsAux_map_snd 1 _, insertRowsAux_map_fst 1 _,
    holdersToInsert_length_le pl bc parsed⟩

/-- Claim C10: the scanner ranks token accounts, not unique owners: when
the number of qualifying accounts does not exceed the 100 cap, an owner
with k qualifying token accounts of the mint occurs k times in the
candidate list - no aggregation, no deduplication. -/
theorem scanner_counts_accounts_not_owners (pl bc : String)
    (parsed : List ParsedAccount) (o : String)
    (hcap : (parsed.filter (qualifies pl bc)).length ≤ 100) :
    (holdersToInsert pl bc parsed).count o
      = (parsed.filter (fun a => qualifies pl bc a && a.owner == o)).length := by
  rw [holdersToInsert_eq, List.take_of_length_le (by simpa using hcap)]
  rw [List.count, List.countP_map, List.countP_filter, List.countP_eq_length_filter]
  have hfun : (fun a : ParsedAccount => qualifies pl bc a && a.owner == o)
      = fun a : ParsedAccount => ((fun x => x == o) ∘ ParsedAccount.owner) a && qualifies pl bc a := by
    funext a
    simp [Function.comp, Bool.and_comm]
  rw [hfun]

/-- Concrete run for C10: the owner alice holds two qualifying token
accounts of the same mint and occupies two of the candidate slots. -/
def demoParsed : List ParsedAccount :=
  [⟨"alice", 2000000⟩, ⟨"bob", 1500000⟩, ⟨"alice", 1200000⟩]

theorem scanner_counts_accounts_not_owners_witness :
    (holdersToInsert "L" "B" demoParsed).count "alice" = 2 := by
  have h := scanner_counts_accounts_not_owners "L" "B" demoParsed "alice" (by decide)
  rw [h]
  decide

/-- Per-address raw points entry (holderScanner.js rawPointsMap values). -/
structure RawPoints where
  holderPoints : Nat
  creatorPoints : Nat
deriving DecidableEq, Repr

/-- Map.get with the JS default entry of zero points
(holderScanner.js line 143). -/
def lookupRaw (m : List (String × RawPoints)) (k : String) : RawPoints :=
  (m.lookup k).getD ⟨0, 0⟩

/-- JS Map.set: update in place when the key exists, append otherwise. -/
def setRaw : List (String × RawPoints) → String → RawPoints → List (String × RawPoints)
  | [], k, v => [(k, v)]
  | (k', v') :: t, k, v =>
    if k' = k then (k, v) :: t else (k', v') :: setRaw t k v

/-- holderScanner.js lines 141-147: for one tracked token with a
registered creator, the creator's creatorPoints entry is incremented by
one. -/
def addCreatorPoint (m : List (String × RawPoints)) (creator : String) :
    List (String × RawPoints) :=
  let entry := lookupRaw m creator
  setRaw m creator { entry with creatorPoints := entry.creatorPoints + 1 }

/-- The creator loop over all tracked tokens with a registered creator. -/
def applyCreators (m : List (String × RawPoints)) (creators : List String) :
    List (String × RawPoints) :=
  creators.foldl addCreatorPoint m

/-- basePoints = holderPoints + creatorPoints * 2
(holderScanner.js line 155). -/
def basePoints (d : RawPoints) : Nat :=
  d.holderPoints + d.creatorPoints * 2

/-- totalPoints = basePoints * (2 if in the loyalty top-100 set else 1)
(holderScanner.js line 156). -/
def totalPointsOf (isTop100 : Bool) (d : RawPoints) : Nat :=
  basePoints d * (if isTop100 then 2 else 1)

lemma lookup_setRaw_self (m : List (String × RawPoints)) (k : String) (v : RawPoints) :
    (setRaw m k v).lookup k = some v := by
  induction m with
  | nil => simp [setRaw]
  | cons e t ih =>
    by_cases h : e.1 = k
    · simp [setRaw, h]
    · simp [setRaw, h, List.lookup, beq_false_of_ne (Ne.symm h), ih]

lemma lookupRaw_addCreatorPoint_self (m : List (String × RawPoints)) (c : String) :
    lookupRaw (addCreatorPoint m c) c
      = { lookupRaw m c with creatorPoints := (lookupRaw m c).creatorPoints + 1 } := by
  simp [addCreatorPoint, lookupRaw, lookup_setRaw_self]

/-- Counterexample for claim C4: processing one tracked token adds 1, not
2, to its creator's creatorPoints, and the token contributes 2, not 4,
base points to the creator before the loyalty multiplier. -/
theorem creator_increment_counterexample :
    (lookupRaw (applyCreators [] ["creator"]) "creator").creatorPoints = 1
    ∧ ¬ (lookupRaw (applyCreators [] ["creator"]) "creator").creatorPoints = 2
    ∧ totalPointsOf false (lookupRaw (applyCreators [] ["creator"]) "creator") = 2
    ∧ ¬ totalPointsOf false (lookupRaw (applyCreators [] ["creator"]) "creator") = 4 := by
  refine ⟨?_, ?_, ?_, ?_⟩ <;> decide

/-- Claim C4 (amended): each tracked token with a registered creator adds
1 to the creator's creatorPoints; totals are
(holderPoints + 2*creatorPoints) * (2 if loyalty top-100 else 1), so each
created tracked token contributes 2 points to its creator before the
multiplier is applied. -/
theorem creator_point_contribution (m : List (String × RawPoints)) (c : String) (mult : Bool) :
    (lookupRaw (addCreatorPoint m c) c).creatorPoints
        = (lookupRaw m c).creatorPoints + 1
    ∧ basePoints (lookupRaw (addCreatorPoint m c) c)
        = basePoints (lookupRaw m c) + 2
    ∧ totalPointsOf mult (lookupRaw (addCreatorPoint m c) c)
        = (basePoints (lookupRaw m c) + 2) * (if mult then 2 else 1) := by
  rw [lookupRaw_addCreatorPoint_self]
  have hb : basePoints { lookupRaw m c with creatorPoints := (lookupRaw m c).creatorPoints + 1 }
      = basePoints (lookupRaw m c) + 2 := by
    simp only [basePoints]
    omega
  exact ⟨rfl, hb, by simp only [totalPointsOf, hb]⟩

/-- holderScanner.js lines 149-161: the first pass over rawPointsMap,
skipping the dev wallet and summing every positive total into
tempTotalPoints (published as globalState.totalPoints). -/
def computeTotalPoints (dev : String) (top100 : String → Bool)
    (m : List (String × RawPoints)) : Nat :=
  m.foldl (fun acc e =>
    if e.1 = dev then acc
    else
      let p := totalPointsOf (top100 e.1) e.2
      if 0 < p then acc + p else acc) 0

/-- holderScanner.js lines 171-193: the second pass, publishing
globalState.userPointsMap with every non-dev address whose recomputed
points are positive. -/
def buildUserPointsMap (dev : String) (top100 : String → Bool)
    (m : List (String × RawPoints)) : List (String × Nat) :=
  m.filterMap (fun e =>
    if e.1 = dev then none
    else
      let p := totalPointsOf (top100 e.1) e.2
      if 0 < p then some (e.1, p) else none)

/-- Recursive form of the first pass, used to reason about the foldl. -/
def sumPoints (dev : String) (top100 : String → Bool) : List (String × RawPoints) → Nat
  | [] => 0
  | e :: t =>
    (if e.1 = dev then 0
     else if 0 < totalPointsOf (top100 e.1) e.2 then totalPointsOf (top100 e.1) e.2 else 0)
    + sumPoints dev top100 t

lemma computeTotalPoints_go (dev : String) (top100 : String → Bool) :
    ∀ (l : List (String × RawPoints)) (a : Nat),
      l.foldl (fun acc e =>
        if e.1 = dev then acc
        else
          let p := totalPointsOf (top100 e.1) e.2
          if 0 < p then acc + p else acc) a
      = a + sumPoints dev top100 l := by
  intro l
  induction l with
  | nil =>
    intro a
    simp [sumPoints]
  | cons x t ih =>
    intro a
    rw [List.foldl_cons, ih]
    by_cases h1 : x.1 = dev
    · simp [sumPoints, h1]
    · by_cases h2 : 0 < totalPointsOf (top100 x.1) x.2 <;> simp [sumPoints, h1, h2] <;> omega

lemma computeTotalPoints_eq_sumPoints (dev : String) (top100 : String → Bool)
    (m : List (String × RawPoints)) :
    computeTotalPoints dev top100 m = sumPoints dev top100 m := by
  unfold computeTotalPoints
  rw [computeTotalPoints_go]
  omega

/-- Claim C8: after a completed recompute, the values of the published
per-address points map sum exactly to the published globalPointTotal -
both passes exclude the dev wallet and apply the same loyalty
multiplier. -/
theorem points_map_sums_to_total (dev : String) (top100 : String → Bool)
    (m : List (String × RawPoints)) :
    ((buildUserPointsMap dev top100 m).map Prod.snd).sum
      = computeTotalPoints dev top100 m := by
  rw [computeTotalPoints_eq_sumPoints]
  induction m with
  | nil => simp [buildUserPointsMap, sumPoints]
  | cons e t ih =>
    unfold buildUserPointsMap at *
    rw [List.filterMap_cons]
    by_cases h1 : e.1 = dev
    · simp [sumPoints, h1, ih]
    · by_cases h2 : 0 < totalPointsOf (top100 e.1) e.2
      · simp [sumPoints, h1, h2, ih]
      · simp [sumPoints, h1, h2, ih]

/-- The Points and Pot Calculator's pot split (holderScanner.js lines
36-44): distributable = raw * 0.99, KOTH pot = 10 percent of it,
community pot = 90 percent of it.  Returns (kothPot, communityPot). -/
def potSplit (rawHoldings : ℚ) : ℚ × ℚ :=
  let totalDistributable := rawHoldings * 0.99
  (totalDistributable * 0.10, totalDistributable * 0.90)

/-- The Airdrop Distributor's pot computation before any transfer attempt
(flywheel task, processAirdrop lines 139-154): when the highest-marketcap
token has a registered creator the 10/90 split is applied, otherwise the
KOTH amount stays 0 and the community amount stays the full distributable
balance. -/
def distributorPots (balance : ℚ) (kothCreator : Option String) : ℚ × ℚ :=
  let totalDistributable := balance * 0.99
  match kothCreator with
  | some _ => (totalDistributable * 0.10, totalDistributable * 0.90)
  | none => (0, totalDistributable)

/-- Counterexample for claim C5: at treasury balance 100 with no
bonus-eligible creator, the distributor's pots are (0, 99) while the
calculator's split is (9.9, 89.1) - the two only agree when a creator
exists. -/
theorem pot_split_counterexample :
    distributorPots 100 none = (0, 99)
    ∧ potSplit 100 = (99/10, 891/10)
    ∧ distributorPots 100 none ≠ potSplit 100 := by
  refine ⟨?_, ?_, ?_⟩ <;> norm_num [distributorPots, potSplit]

/-- Claim C5 (amended): whenever a bonus-eligible creator exists the
distributor's pot split equals the calculator's split for the same
balance, bonus = 0.10 * (0.99 * B) and community = 0.90 * (0.99 * B);
when no creator exists the distributor instead assigns bonus 0 and the
full distributable 0.99 * B to the community pot. -/
theorem distributor_pots_match_calculator (balance : ℚ) (c : String) :
    distributorPots balance (some c) = potSplit balance
    ∧ distributorPots balance none = (0, balance * 0.99) :=
  ⟨rfl, rfl⟩

/-- holderScanner.js lines 171-193: the expected-airdrop map built from
the raw points map - every non-dev address with positive points gets its
proportional community share, plus the KOTH pot when it is the KOTH
creator. -/
def expectedBase (dev : String) (top100 : String → Bool) (kothCreator : Option String)
    (communityPot kothPot : ℚ) (totalPoints : Nat) (m : List (String × RawPoints)) :
    List (String × ℚ) :=
  m.filterMap (fun e =>
    if e.1 = dev then none
    else
      let points := totalPointsOf (top100 e.1) e.2
      if 0 < points then
        let expected : ℚ :=
          if 0 < communityPot ∧ 0 < totalPoints
          then ((points : ℚ) / (totalPoints : ℚ)) * communityPot else 0
        let expected := if some e.1 = kothCreator then expected + kothPot else expected
        some (e.1, expected)
      else none)

/-- holderScanner.js lines 195-198: the KOTH zero-points edge case - a
KOTH creator absent from the expected map (and distinct from the dev
wallet) is appended with exactly the KOTH pot. -/
def buildExpected (dev : String) (top100 : String → Bool) (kothCreator : Option String)
    (communityPot kothPot : ℚ) (totalPoints : Nat) (m : List (String × RawPoints)) :
    List (String × ℚ) :=
  let base := expectedBase dev top100 kothCreator communityPot kothPot totalPoints m
  match kothCreator with
  | some c => if base.lookup c = none ∧ c ≠ dev then base ++ [(c, kothPot)] else base
  | none => base

lemma lookup_expectedBase_eq_none (dev c : String) (top100 : String → Bool)
    (kothCreator : Option String) (communityPot kothPot : ℚ) (totalPoints : Nat)
    (m : List (String × RawPoints))
    (hz : ∀ d ∈ m, d.1 = c → totalPointsOf (top100 c) d.2 = 0) :
    (expectedBase dev top100 kothCreator communityPot kothPot totalPoints m).lookup c
      = none := by
  induction m with
  | nil => simp [expectedBase]
  | cons e t ih =>
    have ht : ∀ d ∈ t, d.1 = c → totalPointsOf (top100 c) d.2 = 0 := by
      intro d hd
      exact hz d (List.mem_cons_of_mem e hd)
    unfold expectedBase at *
    rw [List.filterMap_cons]
    by_cases h1 : e.1 = dev
    · simp only [if_pos h1]
      exact ih ht
    · by_cases hc : e.1 = c
      · have hp : totalPointsOf (top100 e.1) e.2 = 0 := by
          rw [hc]
          exact hz e (List.mem_cons_self e t) hc
        simp only [if_neg h1, hp]
        simpa using ih ht
      · by_cases hp : 0 < totalPointsOf (top100 e.1) e.2
        · simp only [if_neg h1, if_pos hp, List.lookup_cons]
          rw [beq_false_of_ne (fun h => hc h.symm)]
          exact ih ht
        · simp only [if_neg h1, if_neg hp]
          exact ih ht

lemma lookup_append_of_none {α : Type} [BEq α] (l1 l2 : List (α × ℚ)) (k : α)
    (h : l1.lookup k = none) : (l1 ++ l2).lookup k = l2.lookup k := by
  induction l1 with
  | nil => simp
  | cons e t ih =>
    rw [List.cons_append, List.lookup_cons]
    rw [List.lookup_cons] at h
    by_cases hk : (k == e.1) = true
    · rw [hk] at h
      exact absurd h (by simp)
    · have hk' : (k == e.1) = false := by
        revert hk
        cases k == e.1 <;> simp
      rw [hk'] at h ⊢
      exact ih h

/-- Claim C6: when the bonus-eligible creator exists, is not the dev
wallet, and has zero points, the published expected-reward map is the
proportional community-share map of the positive-points addresses plus
one appended entry paying the creator exactly the KOTH pot; looking the
creator up yields exactly kothPot. -/
theorem koth_zero_points_bonus (dev c : String) (top100 : String → Bool)
    (communityPot kothPot : ℚ) (totalPoints : Nat) (m : List (String × RawPoints))
    (hc : c ≠ dev)
    (hz : ∀ d ∈ m, d.1 = c → totalPointsOf (top100 c) d.2 = 0) :
    buildExpected dev top100 (some c) communityPot kothPot totalPoints m
        = expectedBase dev top100 (some c) communityPot kothPot totalPoints m ++ [(c, kothPot)]
    ∧ (buildExpected dev top100 (some c) communityPot kothPot totalPoints m).lookup c
        = some kothPot := by
  have hnone := lookup_expectedBase_eq_none dev c top100 (some c) communityPot kothPot
    totalPoints m hz
  have heq : buildExpected dev top100 (some c) communityPot kothPot totalPoints m
      = expectedBase dev top100 (some c) communityPot kothPot totalPoints m ++ [(c, kothPot)] := by
    show (if (expectedBase dev top100 (some c) communityPot kothPot totalPoints m).lookup c = none
            ∧ c ≠ dev
          then expectedBase dev top100 (some c) communityPot kothPot totalPoints m ++ [(c, kothPot)]
          else expectedBase dev top100 (some c) communityPot kothPot totalPoints m)
        = expectedBase dev top100 (some c) communityPot kothPot totalPoints m ++ [(c, kothPot)]
    rw [if_pos ⟨hnone, hc⟩]
  refine ⟨heq, ?_⟩
  rw [heq, lookup_append_of_none _ _ _ hnone]
  simp [List.lookup_cons]

theorem koth_zero_points_bonus_witness :
    (buildExpected "dev" (fun _ => false) (some "carol") 100 10 5
        [("alice", ⟨3, 0⟩), ("bob", ⟨2, 0⟩)]).lookup "carol" = some 10 :=
  (koth_zero_points_bonus "dev" "carol" (fun _ => false) 100 10 5
    [("alice", ⟨3, 0⟩), ("bob", ⟨2, 0⟩)] (by decide) (by decide)).2

/-- Integer community share (processAirdrop line 202): BN floor division,
share = potInt * points / totalPoints. -/
def communityShare (potInt totalPoints points : Nat) : Nat :=
  potInt * points / totalPoints

/-- The per-address integer shares of the community pot; addresses whose
share rounds to zero are skipped (processAirdrop line 203). -/
def communityShares (potInt totalPoints : Nat) (pts : List Nat) : List Nat :=
  (pts.map (communityShare potInt totalPoints)).filter (fun s => s ≠ 0)

lemma sum_filter_ne_zero (l : List Nat) :
    (l.filter (fun s => s ≠ 0)).sum = l.sum := by
  induction l with
  | nil => simp
  | cons x t ih =>
    rw [List.filter_cons]
    by_cases h : x = 0
    · rw [if_neg (by simp [h])]
      rw [ih]
      simp [h]
    · rw [if_pos (by simp [h])]
      rw [List.sum_cons, List.sum_cons, ih]

lemma map_share_sum_le (P T : Nat) :
    ∀ pts : List Nat, (pts.map (communityShare P T)).sum ≤ P * pts.sum / T := by
  intro pts
  induction pts with
  | nil => simp
  | cons p t ih =>
    rw [List.map_cons, List.sum_cons, List.sum_cons, Nat.mul_add]
    calc communityShare P T p + (t.map (communityShare P T)).sum
        ≤ P * p / T + P * t.sum / T := Nat.add_le_add_left ih _
      _ ≤ (P * p + P * t.sum) / T := Nat.add_div_le_add_div _ _ _

/-- Claim C7: for a non-negative integer community pot P, positive global
point total T and per-address points summing to at most T, the integer
floor shares never over-allocate: their sum is at most P. -/
theorem community_shares_never_exceed_pot (P T : Nat) (pts : List Nat)
    (hT : 0 < T) (hsum : pts.sum ≤ T) :
    (communityShares P T pts).sum ≤ P := by
  rw [communityShares, sum_filter_ne_zero]
  calc (pts.map (communityShare P T)).sum
      ≤ P * pts.sum / T := map_share_sum_le P T pts
    _ ≤ P * T / T := Nat.div_le_div_right (Nat.mul_le_mul_left P hsum)
    _ = P := Nat.mul_div_cancel P hT

theorem community_shares_never_exceed_pot_witness :
    0 < 100 ∧ [60, 40].sum ≤ 100 ∧ (communityShares 1000 100 [60, 40]).sum ≤ 1000 :=
  ⟨by decide, by decide,
    community_shares_never_exceed_pot 1000 100 [60, 40] (by decide) (by decide)⟩

/-- Lamports per SOL. -/
def lamportsPerSol : ℚ := 1000000000

/-- Flywheel safety buffer (flywheel task line 354): 0.05 SOL in
lamports. -/
def safetyBuffer : ℚ := 0.05 * lamportsPerSol

/-- Rent cost of one associated token account (flywheel task line 359),
in lamports. -/
def ataRentCost : ℚ := 0.00203928 * lamportsPerSol

/-- PUMP distribution threshold (flywheel task lines 358 and 119). -/
def airdropThreshold : ℚ := 50000

/-- The conservationStatus record the flywheel caches in global state
(flywheel task lines 392-399).  estimatedCost is stored divided by
lamportsPerSol, i.e. in SOL units. -/
structure ConservationStatus where
  eligibleCount : Nat
  missingAtas : Nat
  estimatedCost : ℚ
  currentSol : ℚ
  pumpBalance : ℚ
  isConserving : Bool
deriving DecidableEq, Repr

/-- Estimated airdrop cost in lamports (flywheel task line 390):
missingAtaCount * ataRentCost + safetyBuffer. -/
def estimatedAirdropCost (missingAtaCount : Nat) : ℚ :=
  (missingAtaCount : ℚ) * ataRentCost + safetyBuffer

/-- Outcome of the flywheel's conservation check: the cached status, the
CONSERVING_SOL flag, and whether the buyback proceeds. -/
structure FlywheelDecision where
  conservationStatus : Option ConservationStatus
  conserving : Bool
  proceedWithBuyback : Bool
deriving DecidableEq, Repr

/-- The flywheel's DECIDING step (flywheel task lines 356-419): when the
PUMP balance is above the threshold, count missing recipient accounts,
compute the estimated cost, cache the status (with estimatedCost divided
by lamportsPerSol), and conserve when the real balance is below the
estimate; the buyback is skipped in both branches.  Below the threshold
the cached status is cleared. -/
def conservationCheck (pumpBalance realBalance : ℚ)
    (missingAtaCount eligibleCount : Nat) : FlywheelDecision :=
  if airdropThreshold < pumpBalance then
    let cost := estimatedAirdropCost missingAtaCount
    let cs : ConservationStatus :=
      { eligibleCount := eligibleCount
        missingAtas := missingAtaCount
        estimatedCost := cost / lamportsPerSol
        currentSol := realBalance / lamportsPerSol
        pumpBalance := pumpBalance
        isConserving := decide (realBalance < cost) }
    if realBalance < cost then
      { conservationStatus := some cs, conserving := true, proceedWithBuyback := false }
    else
      { conservationStatus := some cs, conserving := false, proceedWithBuyback := false }
  else
    { conservationStatus := none, conserving := false, proceedWithBuyback := true }

/-- The Airdrop Distributor's entry checks (processAirdrop lines
116-133): true when the distributor proceeds past the balance check and
the final SOL safety check into the transfer-submission logic.  The JS
expression cachedCost = conservationStatus?.estimatedCost || 0.05 *
LAMPORTS_PER_SOL falls back to the lamport constant when the cached
status is null or the stored cost is 0 (falsy). -/
def airdropFinalCheckPasses (pumpBalance solBalance : ℚ)
    (cached : Option ConservationStatus) : Bool :=
  if pumpBalance ≤ 50000 then false
  else
    let cachedCost : ℚ :=
      match cached with
      | some cs => if cs.estimatedCost = 0 then 0.05 * lamportsPerSol else cs.estimatedCost
      | none => 0.05 * lamportsPerSol
    decide (¬ solBalance < cachedCost)

/-- Claim C1 (code bug): with PUMP balance 100000 above the threshold,
native balance 1000000 lamports and 10 missing recipient accounts, the
flywheel computes an estimated cost of 70392800 lamports, decides
CONSERVING and caches the estimate - yet the distributor's final check
against that cached estimate does not block submission, because the
flywheel stores the estimate in SOL units (0.0703928) while the
distributor compares it against a lamport balance (as its own lamport
fallback constant shows it intends). -/
theorem conserving_cycle_still_airdrops :
    (conservationCheck 100000 1000000 10 10).conserving = true
    ∧ (conservationCheck 100000 1000000 10 10).conservationStatus.map
        ConservationStatus.estimatedCost = some (70392800 / 1000000000 : ℚ)
    ∧ airdropFinalCheckPasses 100000 1000000
        (conservationCheck 100000 1000000 10 10).conservationStatus = true := by
  refine ⟨?_, ?_, ?_⟩ <;>
    norm_num [conservationCheck, airdropFinalCheckPasses, estimatedAirdropCost,
      ataRentCost, safetyBuffer, lamportsPerSol, airdropThreshold]

/-- Number of batch submissions the community loop performs for n
nonzero-share recipients with batch size 8 (processAirdrop lines
191-228): a flush every 8 pushes plus a final flush of the remainder. -/
def batchCount (n : Nat) : Nat :=
  n / 8 + (if n % 8 ≠ 0 then 1 else 0)

/-- What processAirdrop attempts in one invocation. -/
structure AirdropOutcome where
  kothTransferAttempted : Bool
  communityBatchesAttempted : Nat
  logWritten : Bool
deriving DecidableEq, Repr

/-- Shallow model of processAirdrop's control flow (flywheel task lines
109-246): after the entry checks, the KOTH transfer is attempted whenever
the highest-marketcap token has a registered creator; only then are the
points preconditions checked (returning without a log entry when the
global point total is zero or no address has positive points); otherwise
the community batches are submitted and an airdrop log row is written. -/
def processAirdropModel (pumpBalance solBalance : ℚ)
    (cached : Option ConservationStatus) (kothCreator : Option String)
    (userPointsMap : List (String × Nat)) (totalPoints : Nat)
    (communityAmountInt : Nat) : AirdropOutcome :=
  if airdropFinalCheckPasses pumpBalance solBalance cached = false then
    { kothTransferAttempted := false, communityBatchesAttempted := 0, logWritten := false }
  else
    let kothAttempted := kothCreator.isSome
    let userPoints := userPointsMap.filter (fun u => 0 < u.2)
    if totalPoints = 0 ∨ userPoints = [] then
      { kothTransferAttempted := kothAttempted, communityBatchesAttempted := 0,
        logWritten := false }
    else
      let shares := (userPoints.map (fun u =>
        communityShare communityAmountInt totalPoints u.2)).filter (fun s => s ≠ 0)
      { kothTransferAttempted := kothAttempted,
        communityBatchesAttempted := batchCount shares.length, logWritten := true }

/-- Counterexample for claim C3: with zero global points and an empty
points map but a KOTH creator present (balance checks passing), the
distributor does attempt the KOTH transfer before aborting - the abort
is not free of transfer submissions. -/
theorem zero_points_koth_counterexample :
    (processAirdropModel 100000 1000000000 none (some "carol") [] 0 0).kothTransferAttempted
        = true
    ∧ (processAirdropModel 100000 1000000000 none (some "carol") [] 0 0).logWritten = false := by
  refine ⟨?_, ?_⟩ <;>
    norm_num [processAirdropModel, airdropFinalCheckPasses, lamportsPerSol]

/-- Claim C3 (amended): when globalPointTotal is zero or no address has
positive points, processAirdrop submits no community batches and writes
no airdrop log entry, but the KOTH transfer is still attempted first
whenever the entry checks pass and a bonus-eligible creator exists. -/
theorem zero_points_abort_after_koth (pumpBalance solBalance : ℚ)
    (cached : Option ConservationStatus) (kothCreator : Option String)
    (userPointsMap : List (String × Nat)) (tp cai : Nat)
    (hz : tp = 0 ∨ userPointsMap.filter (fun u => 0 < u.2) = []) :
    (processAirdropModel pumpBalance solBalance cached kothCreator userPointsMap tp
        cai).communityBatchesAttempted = 0
    ∧ (processAirdropModel pumpBalance solBalance cached kothCreator userPointsMap tp
        cai).logWritten = false
    ∧ (processAirdropModel pumpBalance solBalance cached kothCreator userPointsMap tp
        cai).kothTransferAttempted
      = (airdropFinalCheckPasses pumpBalance solBalance cached && kothCreator.isSome) := by
  unfold processAirdropModel
  by_cases hg : airdropFinalCheckPasses pumpBalance solBalance cached = false
  · simp [hg]
  · have hg' : airdropFinalCheckPasses pumpBalance solBalance cached = true := by
      revert hg
      cases airdropFinalCheckPasses pumpBalance solBalance cached <;> simp
    rcases hz with hz | hz
    · simp [hg', hz]
    · simp [hg', hz]

theorem zero_points_abort_after_koth_witness :
    (processAirdropModel 100000 2000000000 none (some "dave") [("erin", 0)] 0
        500).logWritten = false :=
  (zero_points_abort_after_koth 100000 2000000000 none (some "dave") [("erin", 0)] 0 500
    (Or.inl rfl)).2.1

/-- One mint's scan-and-persist iteration (holderScanner.js lines
52-124).  fetch yields none when getProgramAccounts throws; the inner
catch only logs, so holdersToInsert stays empty and the
delete-then-insert transaction still runs and commits.  The store maps a
mint to its token_holders rows. -/
def scanMint (pl : String) (bc : String → String)
    (fetch : String → Option (List ParsedAccount))
    (db : String → List (String × Nat)) (mint : String) :
    String → List (String × Nat) :=
  let holders :=
    match fetch mint with
    | some parsed => holdersToInsert pl (bc mint) parsed
    | none => []
  fun m => if m = mint then insertRows holders else db m

/-- The scan cycle over the tracked mints (holderScanner.js lines
52-124): every per-mint error is caught, so each mint in the list is
processed. -/
def scanCycle (pl : String) (bc : String → String)
    (fetch : String → Option (List ParsedAccount))
    (mints : List String) (db : String → List (String × Nat)) :
    String → List (String × Nat) :=
  mints.foldl (fun d mint => scanMint pl bc fetch d mint) db

/-- The stored snapshot before the failing cycle used in the C2
counterexample. -/
def priorDb : String → List (String × Nat) :=
  fun m => if m = "m1" then [("holder", 1)] else []

/-- Counterexample for claim C2: when the ledger fetch for mint m1 fails,
the scan iteration still deletes the previously persisted rows for m1 and
commits an empty snapshot - the prior snapshot is not left intact. -/
theorem scan_failure_wipes_snapshot :
    scanMint "L" (fun _ => "B") (fun _ => none) priorDb "m1" "m1" = []
    ∧ priorDb "m1" = [("holder", 1)]
    ∧ scanMint "L" (fun _ => "B") (fun _ => none) priorDb "m1" "m1" ≠ priorDb "m1" := by
  refine ⟨?_, ?_, ?_⟩ <;> decide

/-- Claim C2 (amended): a fetch failure for one mint is caught and
scanning continues - other mints are untouched by that iteration and a
later mint with a successful fetch is still scanned and persisted - but
the failing mint's prior rows are deleted and replaced by an empty
snapshot rather than left intact. -/
theorem scan_failure_replaces_with_empty (pl : String) (bc : String → String)
    (fetch : String → Option (List ParsedAccount))
    (db : String → List (String × Nat)) (mint m2 : String)
    (l2 : List ParsedAccount)
    (hf : fetch mint = none) (hm2 : fetch m2 = some l2) :
    scanMint pl bc fetch db mint mint = []
    ∧ (∀ m, m ≠ mint → scanMint pl bc fetch db mint m = db m)
    ∧ scanCycle pl bc fetch [mint, m2] db m2
        = insertRows (holdersToInsert pl (bc m2) l2) := by
  refine ⟨?_, ?_, ?_⟩
  · unfold scanMint
    rw [hf]
    simp [insertRows, insertRowsAux]
  · intro m hm
    unfold scanMint
    simp [hm]
  · unfold scanCycle
    simp only [List.foldl_cons, List.foldl_nil]
    unfold scanMint
    rw [hf, hm2]
    simp

theorem scan_failure_replaces_with_empty_witness :
    scanMint "L" (fun _ => "B")
        (fun m => if m = "m2" then some demoParsed else none) priorDb "m1" "m1" = [] :=
  (scan_failure_replaces_with_empty "L" (fun _ => "B")
    (fun m => if m = "m2" then some demoParsed else none) priorDb "m1" "m2" demoParsed
    (by decide) (by decide)).1
